import Mathlib

/-!
Verification development for the AnkiWandler browser extension core:
the durable word store (`StorageManager`), the sync engine (`SyncService`)
and the word/context extraction utilities.  JavaScript strings are
modelled as `String`/`List Char`; the asynchronous storage backend is
modelled by explicit state passing on a `Store` record; the nondeterministic
id/timestamp generator (`Date.now`, `Math.random`) is modelled as an
explicit oracle argument.
-/

/-! ## JS-style string helpers -/

/-- The character class of the JavaScript regular-expression escape `\s`. -/
def jsSpace (c : Char) : Bool :=
  c = ' ' || c = '\t' || c = '\n' || c = '\u000b' || c = '\u000c' || c = '\r' ||
  c = ' ' || c = ' ' ||
  (0x2000 ≤ c.toNat && c.toNat ≤ 0x200a) ||
  c = ' ' || c = ' ' || c = ' ' || c = ' ' || c = '　' ||
  c = '﻿'

/-- `hay.startsWith needle` on character lists. -/
def listStartsWith : List Char → List Char → Bool
  | _, [] => true
  | [], _ :: _ => false
  | c :: cs, d :: ds => c = d && listStartsWith cs ds

/-- `String.prototype.indexOf`: the first index at which `needle` occurs in
`hay`, or `none` when it does not occur. -/
def firstMatchIdx (needle : List Char) : List Char → Option Nat
  | [] => if needle = [] then some 0 else none
  | c :: t =>
    if listStartsWith (c :: t) needle then some 0
    else (firstMatchIdx needle t).map (· + 1)

/-- `String.prototype.includes` on character lists. -/
def containsSub (hay needle : List Char) : Bool :=
  (firstMatchIdx needle hay).isSome

/-- `String.prototype.trim`: strip `\s` characters from both ends. -/
def jsTrim (l : List Char) : List Char :=
  ((l.dropWhile jsSpace).reverse.dropWhile jsSpace).reverse

/-- Helper for `collapseWs`; the flag records whether the previous character
was whitespace (so the current run has already emitted its single space). -/
def collapseWsAux : Bool → List Char → List Char
  | _, [] => []
  | inWs, c :: rest =>
    if jsSpace c then
      if inWs then collapseWsAux true rest
      else ' ' :: collapseWsAux true rest
    else c :: collapseWsAux false rest

/-- `text.replace(/\s+/g, " ")`: every maximal whitespace run becomes one
space. -/
def collapseWs (l : List Char) : List Char :=
  collapseWsAux false l

/-- ASCII lower-casing, `Char.toLower` applied pointwise
(model of `String.prototype.toLowerCase` on the inputs considered here). -/
def lowerStr (s : String) : String :=
  String.mk (s.data.map Char.toLower)

/-- Case-insensitive substring test `a.toLowerCase().includes(b.toLowerCase())`. -/
def includesCI (hay needle : String) : Bool :=
  containsSub (hay.data.map Char.toLower) (needle.data.map Char.toLower)

/-- JavaScript `x || null` on an optional string: the empty string is falsy
and collapses to `null`. -/
def jsOrNull : Option String → Option String
  | none => none
  | some s => if s = "" then none else some s

/-! ## Data model (storage-manager.js, constants.js) -/

/-- A stored Word record, as built by `StorageManager.saveWord`. -/
structure Word where
  id : String
  text : String
  type : String
  context : Option String
  createdAt : String
  synced : Bool
  url : Option String
  title : Option String
deriving Repr, DecidableEq

/-- The derived stats cache. -/
structure Stats where
  totalWords : Nat
  directWords : Nat
  contextWords : Nat
  lastSync : Option String
  syncCount : Nat
deriving Repr, DecidableEq

/-- The persisted state owned by the storage manager: the ordered word
collection (newest first) and the stats cache. -/
structure Store where
  words : List Word
  stats : Stats
deriving Repr, DecidableEq

/-- The `wordData` argument accepted by `StorageManager.saveWord`. -/
structure Draft where
  text : String
  type : String
  context : Option String
  url : Option String
  title : Option String
deriving Repr, DecidableEq

/-! ## Validation utilities (utils.js) -/

/-- `text.trim().replace(/[\u0000-\u001F\u007F-\u009F]/g, "")`. -/
def sanitizeText (l : List Char) : List Char :=
  (jsTrim l).filter (fun c => !(c.toNat ≤ 0x1f || (0x7f ≤ c.toNat && c.toNat ≤ 0x9f)))

/-- Result shape of `validateWord` in utils.js. -/
inductive ValidationResult where
  | invalid (error : String) : ValidationResult
  | valid (word : List Char) : ValidationResult
deriving Repr, DecidableEq

/-- `validateWord` from utils.js (defined in the repository but never
invoked by any caller). -/
def validateWord (w : List Char) : ValidationResult :=
  if w = [] then .invalid "Word is required"
  else
    let s := sanitizeText w
    if s.length = 0 then .invalid "Word cannot be empty"
    else if s.length > 500 then .invalid "Word is too long (max 500 characters)"
    else .valid s

/-! ## StorageManager operations -/

/-- The word object literal built inside `saveWord`; `gen` is the value of
the id expression `Date.now().toString(36) + Math.random().toString(36).substr(2)`
and `now` the value of `new Date().toISOString()`. -/
def mkWord (gen now : String) (d : Draft) : Word :=
  { id := gen
    text := d.text
    type := d.type
    context := jsOrNull d.context
    createdAt := now
    synced := false
    url := jsOrNull d.url
    title := jsOrNull d.title }

/-- Recompute the count fields of the stats cache from a word list, keeping
`lastSync` and `syncCount` (the `updatedStats` block of `saveWord` and
`deleteWord`). -/
def recomputeStats (words : List Word) (old : Stats) : Stats :=
  { old with
    totalWords := words.length
    directWords := (words.filter (fun w => w.type == "direct")).length
    contextWords := (words.filter (fun w => w.type == "context")).length }

/-- `StorageManager.saveWord`: build the word, prepend it, trim the
collection to 1000 entries, recompute stats.  There is no validation step. -/
def saveWord (gen now : String) (d : Draft) (s : Store) : Word × Store :=
  let w := mkWord gen now d
  let updatedWords := (w :: s.words).take 1000
  (w, { words := updatedWords, stats := recomputeStats updatedWords s.stats })

/-- `StorageManager.deleteWord`: filter out the id, recompute stats, and
return `true` on the success path (a `false` return only arises from a
storage I/O failure, which the embedding does not model). -/
def deleteWord (wordId : String) (s : Store) : Bool × Store :=
  let updatedWords := s.words.filter (fun w => w.id != wordId)
  (true, { words := updatedWords, stats := recomputeStats updatedWords s.stats })

/-- `StorageManager.getWords`: `limit ? words.slice(0, limit) : words`
(`limit = 0` is falsy, so it does not truncate). -/
def getWords (limit : Option Nat) (s : Store) : List Word :=
  match limit with
  | some n => if n = 0 then s.words else s.words.take n
  | none => s.words

/-- The filter predicate of `StorageManager.searchWords`:
`word.text.toLowerCase().includes(q) || (word.context && word.context.toLowerCase().includes(q))`. -/
def matchesQuery (query : String) (w : Word) : Bool :=
  includesCI w.text query ||
    (match w.context with
     | some c => !(c = "") && includesCI c query
     | none => false)

/-- `StorageManager.searchWords`. -/
def searchWords (query : String) (s : Store) : List Word :=
  s.words.filter (matchesQuery query)

/-- `handleGetWords` in the background service worker: when `search` is
truthy it calls `searchWords(search)` and the limit is not consulted;
otherwise it calls `getWords(limit)`. -/
def handleGetWords (limit : Option Nat) (search : Option String) (s : Store) : List Word :=
  match search with
  | some q => if q = "" then getWords limit s else searchWords q s
  | none => getWords limit s

/-- The per-word body of the `map` inside `StorageManager.markWordsSynced`. -/
def markOne (wordIds : List String) (w : Word) : Word :=
  if wordIds.contains w.id then { w with synced := true } else w

/-- `StorageManager.markWordsSynced`: map over the collection setting
`synced := true` on matching ids; stats are untouched. -/
def markWordsSynced (wordIds : List String) (s : Store) : Bool × Store :=
  (true, { s with words := s.words.map (markOne wordIds) })

/-- `StorageManager.getUnsyncedWords`. -/
def getUnsyncedWords (s : Store) : List Word :=
  s.words.filter (fun w => !w.synced)

/-- `StorageManager.updateSyncStats`: set `lastSync` to now and bump
`syncCount`. -/
def updateSyncStats (now : String) (st : Stats) : Stats :=
  { st with lastSync := some now, syncCount := st.syncCount + 1 }

/-! ## Small sample values used by the concrete witnesses -/

def emptyStats : Stats :=
  { totalWords := 0, directWords := 0, contextWords := 0, lastSync := none, syncCount := 0 }

def emptyStore : Store :=
  { words := [], stats := emptyStats }

def emptyDraft : Draft :=
  { text := "", type := "direct", context := none, url := none, title := none }

/-! ## C1: saveWord and validation -/

/-- C1 counterexample: `validateWord` rejects the empty string, yet
`saveWord` on a draft with empty text succeeds and inserts a word — the
claimed `ValidationError` failure does not happen. -/
theorem saveWord_accepts_empty_text_c1_cex :
    validateWord "".data = .invalid "Word is required" ∧
    (saveWord "id1" "2024-01-01T00:00:00.000Z" emptyDraft emptyStore).2.words.length = 1 ∧
    (saveWord "id1" "2024-01-01T00:00:00.000Z" emptyDraft emptyStore).1.text = "" := by
  refine ⟨by decide, rfl, rfl⟩

/-- C1 amended: `saveWord` performs no validation at all.  For every draft
(including empty or over-500-character text) it returns a word carrying the
oracle id and timestamp with `synced = false`, inserted at the head of the
collection, which is then trimmed to 1000 entries. -/
theorem saveWord_no_validation_c1 (gen now : String) (d : Draft) (s : Store) :
    (saveWord gen now d s).1.synced = false ∧
    (saveWord gen now d s).1.id = gen ∧
    (saveWord gen now d s).1.createdAt = now ∧
    (saveWord gen now d s).1.text = d.text ∧
    (saveWord gen now d s).2.words = ((saveWord gen now d s).1 :: s.words).take 1000 ∧
    (saveWord gen now d s).2.words.head? = some (saveWord gen now d s).1 := by
  refine ⟨rfl, rfl, rfl, rfl, rfl, ?_⟩
  show (((mkWord gen now d) :: s.words).take 1000).head? = _
  rw [show (1000 : Nat) = 999 + 1 from rfl, List.take_succ_cons]
  rfl

/-! ## C2: deleteWord -/

/-- C2 counterexample: deleting a non-existent id returns `true`, not
`false` as claimed (the collection is indeed left unchanged). -/
theorem deleteWord_absent_returns_true_c2_cex :
    (deleteWord "missing" emptyStore).1 = true ∧
    (deleteWord "missing" emptyStore).2.words = emptyStore.words := by
  refine ⟨rfl, rfl⟩

/-- C2 amended: `deleteWord` always returns `true` on the success path,
whether or not the id is present; it removes exactly the words with the
given id and leaves the collection unchanged when the id is absent. -/
theorem deleteWord_semantics_c2 (wordId : String) (s : Store) :
    (deleteWord wordId s).1 = true ∧
    (deleteWord wordId s).2.words = s.words.filter (fun w => w.id != wordId) ∧
    ((∀ w ∈ s.words, w.id ≠ wordId) → (deleteWord wordId s).2.words = s.words) := by
  refine ⟨rfl, rfl, fun h => ?_⟩
  show s.words.filter (fun w => w.id != wordId) = s.words
  rw [List.filter_eq_self]
  intro w hw
  simpa using h w hw

/-- C2 witness: the amended theorem applied at a concrete absent id. -/
theorem deleteWord_semantics_c2_witness :
    (deleteWord "x" emptyStore).2.words = emptyStore.words :=
  (deleteWord_semantics_c2 "x" emptyStore).2.2 (by intro w hw; cases hw)

/-! ## C10: markWordsSynced frame conditions -/

/-- C10: `markWordsSynced` preserves the length and order of the collection;
every word keeps its id, text, type, context, createdAt, url and title, and
its `synced` flag becomes `synced || (id ∈ wordIds)`; words whose id is not
in the set are returned unchanged. -/
theorem markWordsSynced_frame_c10 (wordIds : List String) (s : Store) :
    (markWordsSynced wordIds s).2.words.length = s.words.length ∧
    (markWordsSynced wordIds s).2.words = s.words.map (markOne wordIds) ∧
    (∀ w, (markOne wordIds w).id = w.id ∧
      (markOne wordIds w).text = w.text ∧
      (markOne wordIds w).type = w.type ∧
      (markOne wordIds w).context = w.context ∧
      (markOne wordIds w).createdAt = w.createdAt ∧
      (markOne wordIds w).url = w.url ∧
      (markOne wordIds w).title = w.title ∧
      (markOne wordIds w).synced = (w.synced || wordIds.contains w.id)) ∧
    (∀ w ∈ s.words, wordIds.contains w.id = false →
      w ∈ (markWordsSynced wordIds s).2.words) := by
  refine ⟨by simp [markWordsSynced], rfl, fun w => ?_, fun w hw hnot => ?_⟩
  · by_cases h : w.id ∈ wordIds
    · simp [markOne, h]
    · simp [markOne, h]
  · have hnot2 : w.id ∉ wordIds := by simpa using hnot
    show w ∈ s.words.map _
    rw [List.mem_map]
    refine ⟨w, hw, ?_⟩
    simp [markOne, hnot2]

/-- C10 witness: the frame theorem applied to a concrete store and id set. -/
theorem markWordsSynced_frame_c10_witness :
    (Word.mk "a" "t" "direct" none "2024" false none none) ∈
      (markWordsSynced ["b"]
        { words := [Word.mk "a" "t" "direct" none "2024" false none none],
          stats := emptyStats }).2.words :=
  (markWordsSynced_frame_c10 ["b"]
    { words := [Word.mk "a" "t" "direct" none "2024" false none none],
      stats := emptyStats }).2.2.2
    (Word.mk "a" "t" "direct" none "2024" false none none) (by simp) (by decide)

/-! ## C9: handleGetWords -/

def wApple : Word :=
  { id := "w1", text := "apple", type := "direct", context := none,
    createdAt := "2024-01-02T00:00:00.000Z", synced := false, url := none, title := none }

def wApricot : Word :=
  { id := "w2", text := "apricot", type := "direct", context := none,
    createdAt := "2024-01-01T00:00:00.000Z", synced := false, url := none, title := none }

def twoWordStore : Store :=
  { words := [wApple, wApricot], stats := emptyStats }

/-- C9 counterexample: with `limit = 1` and `search = "ap"` the handler
returns both matching words — the limit is not applied after filtering. -/
theorem handleGetWords_limit_ignored_c9_cex :
    (handleGetWords (some 1) (some "ap") twoWordStore).length = 2 := by
  decide

/-- C9 amended: when a non-empty `search` is given the handler returns all
words matching the case-insensitive substring query on text or context, in
stored (newest-first) order, ignoring `limit` entirely; without a search, a
nonzero `limit` truncates the stored list and an absent or zero limit
returns it whole. -/
theorem handleGetWords_semantics_c9 (s : Store) (q : String) (n : Nat) :
    (q ≠ "" → ∀ lim, handleGetWords lim (some q) s = s.words.filter (matchesQuery q)) ∧
    (n ≠ 0 → handleGetWords (some n) none s = s.words.take n) ∧
    handleGetWords none none s = s.words ∧
    handleGetWords (some 0) none s = s.words := by
  refine ⟨fun hq lim => ?_, fun hn => ?_, rfl, rfl⟩
  · simp [handleGetWords, hq, searchWords]
  · simp [handleGetWords, getWords, hn]

/-- C9 witness: the amended theorem applied at a concrete store, query and
limit. -/
theorem handleGetWords_semantics_c9_witness :
    handleGetWords (some 1) (some "ap") twoWordStore
      = twoWordStore.words.filter (matchesQuery "ap") ∧
    handleGetWords (some 1) none twoWordStore = twoWordStore.words.take 1 :=
  ⟨(handleGetWords_semantics_c9 twoWordStore "ap" 1).1 (by decide) (some 1),
   (handleGetWords_semantics_c9 twoWordStore "ap" 1).2.1 (by decide)⟩

/-! ## Word extraction (utils.js `extractWords`, word-selector.js) -/

/-- The character class of the token regex
`[\wÀ-ſĀ-ɏḀ-ỿ]`. -/
def isWordChar (c : Char) : Bool :=
  ('a' ≤ c && c ≤ 'z') || ('A' ≤ c && c ≤ 'Z') || ('0' ≤ c && c ≤ '9') || c = '_' ||
  (0xc0 ≤ c.toNat && c.toNat ≤ 0x17f) || (0x100 ≤ c.toNat && c.toNat ≤ 0x24f) ||
  (0x1e00 ≤ c.toNat && c.toNat ≤ 0x1eff)

/-- Helper for `tokenize`: `acc` is the reversed current token run. -/
def tokensAux : List Char → List Char → List (List Char)
  | [], acc => if acc = [] then [] else [acc.reverse]
  | c :: rest, acc =>
    if isWordChar c then tokensAux rest (c :: acc)
    else if acc = [] then tokensAux rest []
    else acc.reverse :: tokensAux rest []

/-- `text.match(/[\w...]+/g) || []`: the maximal word-character runs of the
text, in order. -/
def tokenize (l : List Char) : List (List Char) :=
  tokensAux l []

/-- Helper for `dedupFirst`: drop any element already in `seen`. -/
def dedupFirstAux (seen : List (List Char)) : List (List Char) → List (List Char)
  | [] => []
  | x :: xs =>
    if seen.contains x then dedupFirstAux seen xs
    else x :: dedupFirstAux (x :: seen) xs

/-- `[...new Set(tokens)]`: deduplicate keeping first occurrences, in
insertion order. -/
def dedupFirst (l : List (List Char)) : List (List Char) :=
  dedupFirstAux [] l

/-- Insert `x` after every element whose key is at most `key x` — one step
of a stable insertion sort ascending by `key`. -/
def insertByKey {α : Type} (key : α → Int) (x : α) : List α → List α
  | [] => [x]
  | y :: ys => if key y ≤ key x then y :: insertByKey key x ys else x :: y :: ys

/-- Helper for `sortByKey`: left fold of stable insertions. -/
def sortGo {α : Type} (key : α → Int) (acc : List α) : List α → List α
  | [] => acc
  | x :: xs => sortGo key (insertByKey key x acc) xs

/-- Stable sort ascending by an integer key — the unique stable result of
`Array.prototype.sort` with comparator `(a, b) => key a - key b`. -/
def sortByKey {α : Type} (key : α → Int) (l : List α) : List α :=
  sortGo key [] l

/-- The comparator key of `extractWords`:
`text.toLowerCase().indexOf(tok.toLowerCase())` (`-1` when absent). -/
def keyOf (textLower : List Char) (tok : List Char) : Int :=
  match firstMatchIdx (tok.map Char.toLower) textLower with
  | some i => (i : Int)
  | none => -1

/-- `extractWords` from utils.js (identical in word-selector.js): tokenize,
deduplicate by exact equality keeping first insertion, keep tokens of
length > 1, then stably sort by first case-insensitive occurrence index. -/
def extractWords (text : List Char) : List (List Char) :=
  sortByKey (keyOf (text.map Char.toLower))
    ((dedupFirst (tokenize text)).filter (fun w => 1 < w.length))

/-- String-level wrapper for `extractWords`. -/
def extractWordsS (text : String) : List String :=
  (extractWords text.data).map String.mk

/-! ## Permutation and distinctness lemmas for the extraction pipeline -/

theorem insertByKey_perm {α : Type} (key : α → Int) (x : α) (l : List α) :
    (insertByKey key x l).Perm (x :: l) := by
  induction l with
  | nil => simp [insertByKey]
  | cons y ys ih =>
    simp only [insertByKey]
    split
    · exact (ih.cons y).trans (List.Perm.swap x y ys)
    · exact List.Perm.refl _

theorem sortGo_perm {α : Type} (key : α → Int) (l : List α) :
    ∀ acc : List α, (sortGo key acc l).Perm (acc ++ l) := by
  induction l with
  | nil => intro acc; simp [sortGo]
  | cons x xs ih =>
    intro acc
    simp only [sortGo]
    have h1 := ih (insertByKey key x acc)
    have h2 : (insertByKey key x acc ++ xs).Perm ((x :: acc) ++ xs) :=
      (insertByKey_perm key x acc).append_right xs
    have h3 : ((x :: acc) ++ xs).Perm (acc ++ x :: xs) := List.perm_middle.symm
    exact (h1.trans h2).trans h3

theorem sortByKey_perm {α : Type} (key : α → Int) (l : List α) :
    (sortByKey key l).Perm l := by
  simpa using sortGo_perm key l []

theorem dedupFirstAux_not_seen (l : List (List Char)) :
    ∀ (seen : List (List Char)) (x : List Char), x ∈ dedupFirstAux seen l → x ∉ seen := by
  induction l with
  | nil => intro seen x hx; simp [dedupFirstAux] at hx
  | cons y ys ih =>
    intro seen x hx
    simp only [dedupFirstAux] at hx
    by_cases h : seen.contains y
    · rw [if_pos h] at hx
      exact ih seen x hx
    · rw [if_neg h] at hx
      rcases List.mem_cons.mp hx with rfl | hx2
      · simpa using h
      · intro hs
        exact (ih (y :: seen) x hx2) (List.mem_cons_of_mem y hs)

theorem dedupFirstAux_nodup (l : List (List Char)) :
    ∀ seen : List (List Char), (dedupFirstAux seen l).Nodup := by
  induction l with
  | nil => intro seen; simp [dedupFirstAux]
  | cons y ys ih =>
    intro seen
    simp only [dedupFirstAux]
    by_cases h : seen.contains y
    · rw [if_pos h]
      exact ih seen
    · rw [if_neg h]
      refine List.nodup_cons.mpr ⟨?_, ih (y :: seen)⟩
      intro hy
      exact (dedupFirstAux_not_seen ys (y :: seen) y hy) (List.mem_cons_self y seen)

/-! ## C3: extractWords -/

/-- C3 counterexample: the claimed output of the worked example is wrong —
deduplication is case-sensitive, so the lower-case token "der" survives as
its own entry. -/
theorem extractWords_example_c3_cex :
    extractWordsS "Der Hund, der Hund und die Katze."
      ≠ ["Der", "Hund", "und", "die", "Katze"] := by
  decide

/-- C3 amended: `extractWords` discards tokens of length at most 1 and
deduplicates case-sensitively by exact string equality (so "Der" and "der"
are distinct entries); the surviving tokens are stably ordered by the index
of their first case-insensitive substring occurrence in the text, and the
worked example yields ["Der", "der", "Hund", "und", "die", "Katze"]. -/
theorem extractWords_semantics_c3 :
    extractWordsS "Der Hund, der Hund und die Katze."
      = ["Der", "der", "Hund", "und", "die", "Katze"] ∧
    (∀ t : List Char, (extractWords t).Nodup) ∧
    (∀ (t w : List Char), w ∈ extractWords t → 1 < w.length) := by
  refine ⟨by decide, fun t => ?_, fun t w hw => ?_⟩
  · have hperm := sortByKey_perm (keyOf (t.map Char.toLower))
      ((dedupFirst (tokenize t)).filter (fun w => 1 < w.length))
    have hnd : ((dedupFirst (tokenize t)).filter (fun w => 1 < w.length)).Nodup :=
      (dedupFirstAux_nodup (tokenize t) []).filter _
    exact (hperm.nodup_iff).mpr hnd
  · have hperm := sortByKey_perm (keyOf (t.map Char.toLower))
      ((dedupFirst (tokenize t)).filter (fun w => 1 < w.length))
    have hw2 : w ∈ (dedupFirst (tokenize t)).filter (fun w => 1 < w.length) :=
      hperm.mem_iff.mp hw
    have hp := List.of_mem_filter hw2
    simpa using hp

/-- C3 witness: the membership fact of the amended theorem applied at the
worked example. -/
theorem extractWords_semantics_c3_witness :
    1 < "Der".data.length :=
  extractWords_semantics_c3.2.2 "Der Hund, der Hund und die Katze.".data "Der".data
    (by decide)

/-! ## Context-sentence extraction (content.js) -/

/-- The sentence-terminator class of content.js.  The literal bytes of the
regex class `[.!?‚Ä¶]` are `.`, `!`, `?` followed by U+201A, U+00C4 and
U+00B6 — a mojibake encoding of an intended ellipsis — so the program
treats `‚`, `Ä` and `¶` as sentence terminators and does not treat the
real ellipsis U+2026 as one. -/
def isTerm (c : Char) : Bool :=
  c = '.' || c = '!' || c = '?' || c = '‚' || c = 'Ä' || c = '¶'

/-- Everything after the last sentence terminator of `l` (all of `l` when
there is none): the capture of `/[.!?‚Ä¶]+\s*([^.!?‚Ä¶]*)$/` before
whitespace stripping. -/
def afterLastTerm (l : List Char) : List Char :=
  (l.reverse.takeWhile (fun c => !isTerm c)).reverse

/-- The span assembled by `extractSentenceContainingText` before the length
check: backward capture, the (normalized) selected text, forward capture,
trimmed.  The forward capture `/^([^.!?‚Ä¶]*)[.!?‚Ä¶]/` excludes the
terminator itself. -/
def extractSentenceCore (cleanFull cleanSel : List Char) (idx : Nat) : List Char :=
  let before := cleanFull.take idx
  let after := cleanFull.drop (idx + cleanSel.length)
  let sentenceStart :=
    if before.any isTerm then (afterLastTerm before).dropWhile jsSpace else before
  let sentenceEnd :=
    if after.any isTerm then after.takeWhile (fun c => !isTerm c) else after
  jsTrim (sentenceStart ++ cleanSel ++ sentenceEnd)

/-- `extractSentenceContainingText` from content.js: normalize whitespace,
find the first case-insensitive occurrence of the selection, cut at the
surrounding sentence terminators, and return the trimmed span only when it
is longer than 10 characters. -/
def extractSentenceContainingText (fullText selectedText : List Char) : Option (List Char) :=
  if fullText = [] ∨ selectedText = [] then none
  else
    match firstMatchIdx ((jsTrim (collapseWs selectedText)).map Char.toLower)
        ((jsTrim (collapseWs fullText)).map Char.toLower) with
    | none => none
    | some idx =>
      if 10 < (extractSentenceCore (jsTrim (collapseWs fullText))
          (jsTrim (collapseWs selectedText)) idx).length then
        some (extractSentenceCore (jsTrim (collapseWs fullText))
          (jsTrim (collapseWs selectedText)) idx)
      else none

/-- String-level wrapper for `extractSentenceContainingText`. -/
def extractSentenceS (fullText selectedText : String) : Option String :=
  (extractSentenceContainingText fullText.data selectedText.data).map String.mk

/-! ## C4: extractSentenceContainingText -/

/-- C4 counterexample: on the worked example the code returns the sentence
without its trailing period, so the claimed value with the period is
wrong. -/
theorem extractSentence_example_c4_cex :
    extractSentenceS "Hello. The big dog runs fast. Goodbye." "dog"
      = some "The big dog runs fast" ∧
    some "The big dog runs fast" ≠ some ("The big dog runs fast." : String) := by
  exact ⟨by decide, by decide⟩

/-- C4 amended: the extraction locates the first case-insensitive occurrence
of the normalized selection, cuts at the nearest character of the
terminator class — the mis-encoded `[.!?‚Ä¶]`, so `‚`, `Ä` and `¶`
terminate a sentence while a real ellipsis does not — or at the text
boundaries, excludes the terminator itself from the result, and returns
the trimmed span only when longer than 10 characters; the worked example
yields "The big dog runs fast" (no trailing period), and a text containing
`Ä` is cut at that letter. -/
theorem extractSentence_semantics_c4 :
    extractSentenceS "Hello. The big dog runs fast. Goodbye." "dog"
      = some "The big dog runs fast" ∧
    extractSentenceS "Ich esse Äpfel und Birnen gerne" "Birnen"
      = some "pfel und Birnen gerne" ∧
    (∀ f sel out : List Char, extractSentenceContainingText f sel = some out →
      10 < out.length) := by
  refine ⟨by decide, by decide, fun f sel out h => ?_⟩
  unfold extractSentenceContainingText at h
  split at h
  · exact absurd h (by simp)
  · split at h
    · exact absurd h (by simp)
    · split at h
      next h10 =>
        cases h
        exact h10
      next =>
        exact absurd h (by simp)

/-- C4 witness: the length bound applied at the worked example. -/
theorem extractSentence_semantics_c4_witness :
    10 < "The big dog runs fast".data.length :=
  extractSentence_semantics_c4.2.2 "Hello. The big dog runs fast. Goodbye.".data
    "dog".data "The big dog runs fast".data (by decide)

/-! ## Sync engine (sync-service.js) -/

/-- The settings fields consulted by the sync service; a missing value is
the falsy empty string. -/
structure Settings where
  serverUrl : String
  apiKey : String
  autoSync : Bool
deriving Repr, DecidableEq

/-- The result object of `_performSync` / `syncToServer`. -/
structure SyncResult where
  success : Bool
  message : String
  syncedCount : Nat
deriving Repr, DecidableEq

/-- The possible outcomes of the `fetch` in `_sendWordsToServer`: a 2xx
response, a non-2xx status with a body, an abort after the 30s timeout, or
a transport error. -/
inductive NetOutcome where
  | ok : NetOutcome
  | httpError (status : Nat) (body : String) : NetOutcome
  | timeout : NetOutcome
  | transport (msg : String) : NetOutcome
deriving Repr, DecidableEq

/-- `_sendWordsToServer`: a non-2xx status, an abort, or a transport
failure all surface as a thrown error (`Except.error`); only a 2xx
response returns normally. -/
def sendWordsToServer : NetOutcome → Except String Unit
  | .ok => .ok ()
  | .httpError status body =>
    .error ("Server error: " ++ toString status ++ " - " ++ body)
  | .timeout => .error "Request timeout"
  | .transport msg => .error msg

/-- `_performSync`: `s0` is the store at the time the unsynced snapshot is
read and `mid` the store at the time the network call returns (arbitrary
writes may have happened during the suspension); `markWordsSynced` runs on
`mid` and only after a success response. -/
def performSync (settings : Settings) (s0 : Store) (net : NetOutcome) (mid : Store)
    (now : String) : SyncResult × Store :=
  if settings.serverUrl = "" ∨ settings.apiKey = "" then
    ({ success := false, message := "Server configuration missing", syncedCount := 0 }, s0)
  else if getUnsyncedWords s0 = [] then
    ({ success := true, message := "No words to sync", syncedCount := 0 }, s0)
  else
    match sendWordsToServer net with
    | .ok _ =>
      let s1 := (markWordsSynced ((getUnsyncedWords s0).map (fun w => w.id)) mid).2
      ({ success := true,
         message := "Synced " ++ toString (getUnsyncedWords s0).length ++ " words",
         syncedCount := (getUnsyncedWords s0).length },
       { s1 with stats := updateSyncStats now s1.stats })
    | .error msg =>
      ({ success := false, message := msg, syncedCount := 0 }, mid)

/-! ## C5: success path marks exactly the snapshot -/

/-- C5: on a success response, `markWordsSynced` is applied to the current
store with exactly the ids of the pre-network snapshot; `syncedCount`
equals the snapshot size; any word present at marking time whose id is not
in the snapshot (in particular one inserted during the network call) is
left untouched, so its `synced` flag stays `false`.  An empty snapshot
short-circuits with `syncedCount = 0` and no store change. -/
theorem performSync_success_marks_snapshot_c5 (settings : Settings) (s0 mid : Store)
    (now : String) (hurl : settings.serverUrl ≠ "") (hkey : settings.apiKey ≠ "") :
    (getUnsyncedWords s0 ≠ [] →
      (performSync settings s0 .ok mid now).1.success = true ∧
      (performSync settings s0 .ok mid now).1.syncedCount = (getUnsyncedWords s0).length ∧
      (performSync settings s0 .ok mid now).2.words
        = mid.words.map (markOne ((getUnsyncedWords s0).map (fun w => w.id))) ∧
      (∀ w ∈ mid.words, w.id ∉ (getUnsyncedWords s0).map (fun w => w.id) →
        w ∈ (performSync settings s0 .ok mid now).2.words)) ∧
    (getUnsyncedWords s0 = [] →
      (performSync settings s0 .ok mid now).1.success = true ∧
      (performSync settings s0 .ok mid now).1.syncedCount = 0 ∧
      (performSync settings s0 .ok mid now).2 = s0) := by
  constructor
  · intro hne
    refine ⟨?_, ?_, ?_, ?_⟩
    · simp [performSync, hurl, hkey, hne, sendWordsToServer]
    · simp [performSync, hurl, hkey, hne, sendWordsToServer]
    · simp [performSync, hurl, hkey, hne, sendWordsToServer, markWordsSynced]
    · intro w hw hnot
      have hshape : (performSync settings s0 .ok mid now).2.words
          = mid.words.map (markOne ((getUnsyncedWords s0).map (fun w => w.id))) := by
        simp [performSync, hurl, hkey, hne, sendWordsToServer, markWordsSynced]
      rw [hshape, List.mem_map]
      refine ⟨w, hw, ?_⟩
      simp [markOne, hnot]
  · intro hemp
    refine ⟨?_, ?_, ?_⟩ <;> simp [performSync, hurl, hkey, hemp]

def wUnsynced : Word :=
  { id := "u1", text := "hallo", type := "direct", context := none,
    createdAt := "2024-01-01T00:00:00.000Z", synced := false, url := none, title := none }

def wDuring : Word :=
  { id := "n1", text := "neu", type := "direct", context := none,
    createdAt := "2024-01-01T00:00:01.000Z", synced := false, url := none, title := none }

def sampleSettings : Settings :=
  { serverUrl := "http://localhost:8000", apiKey := "secret", autoSync := true }

def storeBefore : Store :=
  { words := [wUnsynced], stats := emptyStats }

def storeDuring : Store :=
  { words := [wDuring, wUnsynced], stats := emptyStats }

/-- C5 witness: a word inserted during the network call is still present
unchanged (hence unsynced) after the successful cycle. -/
theorem performSync_success_marks_snapshot_c5_witness :
    wDuring ∈ (performSync sampleSettings storeBefore .ok storeDuring
      "2024-01-02T00:00:00.000Z").2.words :=
  ((performSync_success_marks_snapshot_c5 sampleSettings storeBefore storeDuring
      "2024-01-02T00:00:00.000Z" (by decide) (by decide)).1 (by decide)).2.2.2
    wDuring (by decide) (by decide)

/-! ## C6: failure paths mutate nothing -/

/-- C6: when the network call fails — non-2xx status, timeout or transport
failure — the cycle returns a failure result and performs no store write:
the store at the failure point is returned as-is (instantiating the
during-call store with the starting store, the collection after the failed
cycle equals the collection before it). -/
theorem performSync_failure_no_mutation_c6 (settings : Settings) (s0 mid : Store)
    (net : NetOutcome) (now : String)
    (hurl : settings.serverUrl ≠ "") (hkey : settings.apiKey ≠ "")
    (hne : getUnsyncedWords s0 ≠ []) (hfail : net ≠ .ok) :
    (performSync settings s0 net mid now).1.success = false ∧
    (performSync settings s0 net mid now).2 = mid := by
  cases net with
  | ok => exact absurd rfl hfail
  | httpError status body => constructor <;> simp [performSync, hurl, hkey, hne, sendWordsToServer]
  | timeout => constructor <;> simp [performSync, hurl, hkey, hne, sendWordsToServer]
  | transport msg => constructor <;> simp [performSync, hurl, hkey, hne, sendWordsToServer]

/-- C6 witness: a timeout cycle over a concrete store leaves it unchanged. -/
theorem performSync_failure_no_mutation_c6_witness :
    (performSync sampleSettings storeBefore .timeout storeBefore
      "2024-01-02T00:00:00.000Z").2 = storeBefore :=
  (performSync_failure_no_mutation_c6 sampleSettings storeBefore storeBefore .timeout
    "2024-01-02T00:00:00.000Z" (by decide) (by decide) (by decide) (by decide)).2

/-! ## C7: single-flight guard -/

/-- An in-flight sync cycle: the promise object of `_performSync`, carrying
its eventual result. -/
structure SyncCycle where
  cid : Nat
  outcome : SyncResult
deriving Repr, DecidableEq

/-- The static state of `SyncService`: the `currentSyncPromise` field plus
a counter of network cycles ever started, for accounting. -/
structure EngineState where
  currentSyncPromise : Option SyncCycle
  cyclesStarted : Nat
deriving Repr, DecidableEq

/-- The synchronous entry section of `syncToServer` (lines 13–17 run
without suspension): if a cycle is in flight return it unchanged, otherwise
start a fresh cycle and record it. -/
def syncToServerEnter (fresh : SyncCycle) (st : EngineState) : SyncCycle × EngineState :=
  match st.currentSyncPromise with
  | some c => (c, st)
  | none =>
    (fresh, { currentSyncPromise := some fresh, cyclesStarted := st.cyclesStarted + 1 })

/-- C7: while a cycle is in flight, a second `syncToServer` call returns
exactly the in-flight cycle — same eventual outcome — without touching the
engine state or starting a second cycle. -/
theorem syncToServer_single_flight_c7 (st : EngineState) (fresh c : SyncCycle)
    (h : st.currentSyncPromise = some c) :
    (syncToServerEnter fresh st).1 = c ∧
    (syncToServerEnter fresh st).2 = st ∧
    (syncToServerEnter fresh st).2.cyclesStarted = st.cyclesStarted ∧
    (syncToServerEnter fresh st).1.outcome = c.outcome := by
  simp [syncToServerEnter, h]

/-- C7 witness: the single-flight theorem at a concrete engine state. -/
theorem syncToServer_single_flight_c7_witness :
    (syncToServerEnter ⟨2, ⟨false, "m2", 0⟩⟩
      ⟨some ⟨1, ⟨true, "m1", 3⟩⟩, 1⟩).1 = ⟨1, ⟨true, "m1", 3⟩⟩ :=
  (syncToServer_single_flight_c7 ⟨some ⟨1, ⟨true, "m1", 3⟩⟩, 1⟩
    ⟨2, ⟨false, "m2", 0⟩⟩ ⟨1, ⟨true, "m1", 3⟩⟩ rfl).1

/-! ## C8: invariants over sequences of saveWord calls -/

/-- One `saveWord` invocation together with the values its id/timestamp
oracle produced. -/
structure SaveCall where
  gen : String
  now : String
  draft : Draft
deriving Repr, DecidableEq

/-- A finite sequence of `saveWord` calls, oldest first. -/
def saveRun (calls : List SaveCall) (s : Store) : Store :=
  calls.foldl (fun st c => (saveWord c.gen c.now c.draft st).2) s

theorem take_cons_take {α : Type} (w : α) (l : List α) (n : Nat) :
    (w :: l.take (n + 1)).take (n + 1) = (w :: l).take (n + 1) := by
  rw [List.take_succ_cons, List.take_succ_cons, List.take_take,
    Nat.min_eq_left (by omega)]

theorem saveRun_shape (calls : List SaveCall) :
    ∀ (l : List Word) (s : Store), s.words = l.take 1000 →
    (saveRun calls s).words
      = ((calls.map (fun c => mkWord c.gen c.now c.draft)).reverse ++ l).take 1000 := by
  induction calls with
  | nil => intro l s hs; simpa [saveRun] using hs
  | cons c cs ih =>
    intro l s hs
    have hstep : (saveWord c.gen c.now c.draft s).2.words
        = ((mkWord c.gen c.now c.draft) :: l).take 1000 := by
      show ((mkWord c.gen c.now c.draft) :: s.words).take 1000 = _
      rw [hs]
      exact take_cons_take (mkWord c.gen c.now c.draft) l 999
    have hrec := ih ((mkWord c.gen c.now c.draft) :: l)
      (saveWord c.gen c.now c.draft s).2 hstep
    show (saveRun cs (saveWord c.gen c.now c.draft s).2).words = _
    rw [hrec]
    simp [List.append_assoc]

/-- C8: over any finite sequence of `saveWord` calls from a reachable store
state (distinct stored ids, at most 1000 entries), provided the id oracle
never repeats a value nor collides with a stored id, the resulting ids are
pairwise distinct, the collection never exceeds the 1000-word cap, and the
collection is exactly the new words newest-first in insertion order
prepended to the old ones, truncated at the cap (oldest entries evicted). -/
theorem saveWord_invariants_c8 (calls : List SaveCall) (s : Store)
    (hlen : s.words.length ≤ 1000)
    (hids : (s.words.map (fun w => w.id)).Nodup)
    (hgen : (calls.map (fun c => c.gen)).Nodup)
    (hfresh : ∀ c ∈ calls, c.gen ∉ s.words.map (fun w => w.id)) :
    (saveRun calls s).words.length ≤ 1000 ∧
    ((saveRun calls s).words.map (fun w => w.id)).Nodup ∧
    (saveRun calls s).words
      = ((calls.map (fun c => mkWord c.gen c.now c.draft)).reverse ++ s.words).take 1000 := by
  have hs : s.words = s.words.take 1000 := (List.take_of_length_le hlen).symm
  have hshape := saveRun_shape calls s.words s hs
  refine ⟨?_, ?_, hshape⟩
  · rw [hshape]
    exact List.length_take_le 1000 _
  · rw [hshape]
    have hfull : (((calls.map (fun c => mkWord c.gen c.now c.draft)).reverse
        ++ s.words).map (fun w => w.id)).Nodup := by
      rw [List.map_append, List.map_reverse, List.map_map]
      have hcomp : ((fun w : Word => w.id) ∘ fun c : SaveCall => mkWord c.gen c.now c.draft)
          = fun c : SaveCall => c.gen := by
        funext c
        rfl
      rw [hcomp]
      refine (List.nodup_append).mpr ⟨by simpa using hgen, hids, ?_⟩
      intro a ha hb
      rw [List.mem_reverse, List.mem_map] at ha
      rcases ha with ⟨c, hc, rfl⟩
      exact hfresh c hc hb
    rw [List.map_take]
    exact List.Nodup.sublist (List.take_sublist 1000 _) hfull

def sampleDraft : Draft :=
  { text := "Haus", type := "direct", context := none, url := none, title := none }

/-- C8 witness: two saves with distinct oracle ids on the empty store yield
pairwise-distinct ids. -/
theorem saveWord_invariants_c8_witness :
    ((saveRun [⟨"a", "t1", sampleDraft⟩, ⟨"b", "t2", sampleDraft⟩] emptyStore).words.map
      (fun w => w.id)).Nodup :=
  (saveWord_invariants_c8 [⟨"a", "t1", sampleDraft⟩, ⟨"b", "t2", sampleDraft⟩] emptyStore
    (by decide) (by decide) (by decide) (by decide)).2.1
